import Mathlib

/-!
Verification of the event caching / similarity retrieval backend.

The Python services are shallowly embedded as pure Lean functions:

* `redis_cache.py` (`RedisCacheService.add_events_to_cache`) — cache merge
  over event dictionaries;
* `events_cache.py` (`EventsCacheService.get_cached_events_with_fallback`,
  `_filter_cached_events`, `_fetch_from_database`,
  `_get_event_counts_by_interval`) — the cache-vs-store read path and the
  busiest-cities activity histogram;
* `similarity.py` (`SimilarityService.find_similar_events_by_id`) — the
  three-source similarity merge;
* `embedding.py` (`EmbeddingService.generate_embedding`,
  `EmbeddingService.cosine_similarity`) — embedding generation and cosine
  similarity (floats are modelled as real numbers);
* `enhanced_similarity.py` (`EnhancedSimilarityService`) and
  `api/routes/events.py` — the vector search with brute-force fallback and
  the HTTP similarity endpoints.

Database query results are modelled by executing the query's SQL semantics
over a `List` of rows; redis is modelled as a partial map from keys to
entries.  Python's stable `list.sort` is modelled by `List.insertionSort`
(also stable).  Timestamps are modelled as integers (naturals for the
ISO-8601 `start` strings used as sort keys — lexicographic order on
equal-format ISO strings agrees with chronological order — and integer
minutes where calendar arithmetic is performed on them).
-/

/-- An event dictionary as stored in the redis events cache and consumed by
the listing read path.  `id`/`category` use `Option` because Python
`dict.get` yields `None` for an absent key; the fields not examined by the
modelled logic (title, description, coordinates, related ids) are collapsed
into the opaque `rest` field. -/
structure EventDict where
  id : Option String
  category : Option String
  location : String
  start : ℕ
  rest : String
deriving DecidableEq, Repr

/-- The value stored under one events-cache key (`redis_cache.py`,
`add_events_to_cache`): the event list plus `last_updated` /
`total_events` metadata, written with a fresh TTL. -/
structure CacheData where
  events : List EventDict
  last_updated : ℕ
  total_events : ℕ
  ttl_seconds : ℕ
deriving DecidableEq, Repr

/-- Merge of incoming events into the (possibly absent) cached list
(`redis_cache.py` lines 41-64): with an existing entry, only incoming
events whose `id` is not already among the cached ids are appended; with
no existing entry the incoming list is stored verbatim. -/
def cache_merge_events (existing : Option (List EventDict))
    (new_events : List EventDict) : List EventDict :=
  match existing with
  | some existing_events =>
      let existing_event_ids := existing_events.map EventDict.id
      let unique_new_events :=
        new_events.filter (fun e => e.id ∉ existing_event_ids)
      existing_events ++ unique_new_events
  | none => new_events

/-- `RedisCacheService.add_events_to_cache`: read the existing entry, merge
per `cache_merge_events`, and write back with `last_updated := now`,
`total_events := length`, and the full 24h TTL. -/
def add_events_to_cache (existing : Option CacheData)
    (new_events : List EventDict) (now : ℕ) : CacheData :=
  let all_events := cache_merge_events (existing.map CacheData.events) new_events
  { events := all_events
    last_updated := now
    total_events := all_events.length
    ttl_seconds := 24 * 60 * 60 }

example :
    (add_events_to_cache
      (some { events := [⟨some ("a"), none, "", 0, "x"⟩], last_updated := 0,
              total_events := 1, ttl_seconds := 0 })
      [⟨some ("a"), none, "", 0, "y"⟩, ⟨some ("b"), none, "", 0, "z"⟩] 7).events
    = [⟨some ("a"), none, "", 0, "x"⟩, ⟨some ("b"), none, "", 0, "z"⟩] := by
  decide

theorem cache_merge_events_idem (existing : Option (List EventDict))
    (L : List EventDict) :
    cache_merge_events (some (cache_merge_events existing L)) L
      = cache_merge_events existing L := by
  have h : ∀ e ∈ L, e.id ∈ (cache_merge_events existing L).map EventDict.id := by
    intro e he
    cases existing with
    | none => exact List.mem_map_of_mem _ he
    | some E =>
      simp only [cache_merge_events, List.map_append, List.mem_append]
      by_cases hid : e.id ∈ E.map EventDict.id
      · exact Or.inl hid
      · refine Or.inr (List.mem_map_of_mem _ ?_)
        rw [List.mem_filter]
        exact ⟨he, by simpa using hid⟩
  have hnil :
      L.filter (fun e => e.id ∉ (cache_merge_events existing L).map EventDict.id)
        = [] := by
    rw [List.filter_eq_nil_iff]
    intro a ha
    simpa using h a ha
  show cache_merge_events existing L ++ _ = _
  rw [hnil, List.append_nil]

theorem cache_merge_events_nodup (existing : Option (List EventDict))
    (L : List EventDict)
    (hE : ∀ E, existing = some E → (E.map EventDict.id).Nodup)
    (hL : (L.map EventDict.id).Nodup) :
    ((cache_merge_events existing L).map EventDict.id).Nodup := by
  cases existing with
  | none => exact hL
  | some E =>
    have hEn : (E.map EventDict.id).Nodup := hE E rfl
    have hFsub :
        List.Sublist (L.filter (fun e => e.id ∉ E.map EventDict.id)) L :=
      List.filter_sublist _
    have hFn :
        ((L.filter (fun e => e.id ∉ E.map EventDict.id)).map EventDict.id).Nodup :=
      (hFsub.map EventDict.id).nodup hL
    have hdisj :
        (E.map EventDict.id).Disjoint
          ((L.filter (fun e => e.id ∉ E.map EventDict.id)).map EventDict.id) := by
      intro a haE haF
      rcases List.mem_map.mp haF with ⟨e, heF, rfl⟩
      rcases List.mem_filter.mp heF with ⟨-, hpred⟩
      have hpn : e.id ∉ E.map EventDict.id := by simpa using hpred
      exact hpn haE
    show ((E ++ _).map EventDict.id).Nodup
    rw [List.map_append]
    exact hEn.append hFn hdisj

/-- C5 counterexample: merging an event list that itself contains two
events with the same id (here id "1") into a cache key stores both of
them, so the cached list does contain two events with the same id — the
per-merge dedup in `add_events_to_cache` only filters incoming events
against the ids already cached, not against each other. -/
theorem add_events_to_cache_duplicate_ids_cex :
    ¬ (((add_events_to_cache
          (some { events := [⟨some ("0"), none, "", 0, "z"⟩], last_updated := 0,
                  total_events := 1, ttl_seconds := 0 })
          [⟨some ("1"), none, "", 0, "a"⟩, ⟨some ("1"), none, "", 0, "b"⟩]
          1).events.map EventDict.id).Nodup) := by
  decide

/-- C5 (amended): the cache merge is idempotent — merging the same event
list `L` twice in succession yields the same cached event list as merging
it once, because incoming events whose id is already present in the cached
list are filtered out.  Moreover the cached list never contains two events
with the same id provided the previously cached list and the incoming list
each contain no internal duplicate ids (a single merge of a list with
internal duplicate ids can still insert those duplicates). -/
theorem add_events_to_cache_idempotent (existing : Option CacheData)
    (L : List EventDict) (t1 t2 : ℕ) :
    (add_events_to_cache (some (add_events_to_cache existing L t1)) L t2).events
      = (add_events_to_cache existing L t1).events
    ∧ ((∀ c ∈ existing, (c.events.map EventDict.id).Nodup) →
        (L.map EventDict.id).Nodup →
        (((add_events_to_cache existing L t1).events.map EventDict.id).Nodup)) := by
  constructor
  · show cache_merge_events (some (cache_merge_events (existing.map CacheData.events) L)) L
        = cache_merge_events (existing.map CacheData.events) L
    exact cache_merge_events_idem _ L
  · intro hex hL
    refine cache_merge_events_nodup _ L ?_ hL
    intro E hEeq
    cases existing with
    | none => simp at hEeq
    | some c =>
        have : c.events = E := by simpa using hEeq
        exact this ▸ hex c rfl

theorem add_events_to_cache_idempotent_witness :
    ((add_events_to_cache
        (some (add_events_to_cache none [⟨some ("1"), none, "", 0, "a"⟩] 0))
        [⟨some ("1"), none, "", 0, "a"⟩] 3).events
      = (add_events_to_cache none [⟨some ("1"), none, "", 0, "a"⟩] 0).events)
    ∧ ((add_events_to_cache none [⟨some ("1"), none, "", 0, "a"⟩] 0).events.map
        EventDict.id).Nodup := by
  have h := add_events_to_cache_idempotent none [⟨some ("1"), none, "", 0, "a"⟩] 0 3
  exact ⟨h.1, h.2 (by simp) (by decide)⟩

/-- C10: the cache merge keeps the previously cached list verbatim as a
prefix of the written list; the appended tail is a subsequence of the
incoming list (so new unique events keep their input order) consisting of
exactly the incoming events whose id is not already cached — an incoming
event whose id matches a cached event is never appended, even when its
other fields differ; the rewritten metadata is `total_events = length`,
`last_updated = now`, and the full 24-hour TTL. -/
theorem add_events_to_cache_frame (cached : CacheData) (L : List EventDict)
    (now : ℕ) :
    cached.events <+: (add_events_to_cache (some cached) L now).events
    ∧ List.Sublist
        ((add_events_to_cache (some cached) L now).events.drop cached.events.length) L
    ∧ (∀ e ∈ L, e.id ∈ cached.events.map EventDict.id →
        e ∉ (add_events_to_cache (some cached) L now).events.drop cached.events.length)
    ∧ (∀ e ∈ L, e.id ∉ cached.events.map EventDict.id →
        e ∈ (add_events_to_cache (some cached) L now).events.drop cached.events.length)
    ∧ (add_events_to_cache (some cached) L now).total_events
        = (add_events_to_cache (some cached) L now).events.length
    ∧ (add_events_to_cache (some cached) L now).last_updated = now
    ∧ (add_events_to_cache (some cached) L now).ttl_seconds = 24 * 60 * 60 := by
  have hev : (add_events_to_cache (some cached) L now).events
      = cached.events ++ L.filter (fun e => e.id ∉ cached.events.map EventDict.id) :=
    rfl
  have hdrop : (add_events_to_cache (some cached) L now).events.drop cached.events.length
      = L.filter (fun e => e.id ∉ cached.events.map EventDict.id) := by
    rw [hev, List.drop_left]
  refine ⟨⟨_, hev.symm⟩, ?_, ?_, ?_, rfl, rfl, rfl⟩
  · rw [hdrop]; exact List.filter_sublist L
  · intro e heL hid hmem
    rw [hdrop] at hmem
    rcases List.mem_filter.mp hmem with ⟨-, hpred⟩
    have hpn : e.id ∉ cached.events.map EventDict.id := by simpa using hpred
    exact hpn hid
  · intro e heL hid
    rw [hdrop]
    exact List.mem_filter.mpr ⟨heL, by simpa using hid⟩

theorem add_events_to_cache_frame_witness :
    (({ events := [⟨some ("0"), none, "", 0, "z"⟩], last_updated := 0,
        total_events := 1, ttl_seconds := 0 } : CacheData).events <+:
      (add_events_to_cache
        (some { events := [⟨some ("0"), none, "", 0, "z"⟩], last_updated := 0,
                total_events := 1, ttl_seconds := 0 })
        [⟨some ("0"), none, "", 0, "w"⟩, ⟨some ("2"), none, "", 0, "v"⟩] 9).events)
    ∧ (⟨some ("0"), none, "", 0, "w"⟩ : EventDict) ∉
        ((add_events_to_cache
          (some { events := [⟨some ("0"), none, "", 0, "z"⟩], last_updated := 0,
                  total_events := 1, ttl_seconds := 0 })
          [⟨some ("0"), none, "", 0, "w"⟩, ⟨some ("2"), none, "", 0, "v"⟩] 9).events.drop 1)
    ∧ (⟨some ("2"), none, "", 0, "v"⟩ : EventDict) ∈
        ((add_events_to_cache
          (some { events := [⟨some ("0"), none, "", 0, "z"⟩], last_updated := 0,
                  total_events := 1, ttl_seconds := 0 })
          [⟨some ("0"), none, "", 0, "w"⟩, ⟨some ("2"), none, "", 0, "v"⟩] 9).events.drop 1) := by
  have h := add_events_to_cache_frame
    { events := [⟨some ("0"), none, "", 0, "z"⟩], last_updated := 0,
      total_events := 1, ttl_seconds := 0 }
    [⟨some ("0"), none, "", 0, "w"⟩, ⟨some ("2"), none, "", 0, "v"⟩] 9
  exact ⟨h.1,
    h.2.2.1 _ (by decide) (by decide),
    h.2.2.2.1 _ (by decide) (by decide)⟩

/-- `pat` occurs as a contiguous run at the head of `s`. -/
def list_starts_with : List Char → List Char → Bool
  | _, [] => true
  | [], _ :: _ => false
  | a :: s, b :: p => a = b && list_starts_with s p

/-- `pat` occurs as a contiguous run somewhere in `s` — Python's
`pat in s` on strings (for nonempty `pat`; an empty `pat` is never passed
because empty filter strings are falsy and skip the filter entirely). -/
def list_has_sub : List Char → List Char → Bool
  | [], p => list_starts_with [] p
  | s@(_ :: t), p => list_starts_with s p || list_has_sub t p

/-- Python `str.lower()` on the character list of a string. -/
def str_lower (s : String) : List Char := s.toList.map Char.toLower

/-- The location filter of `_filter_cached_events` (`events_cache.py`
lines 85-90) and the SQL `location ILIKE %q%` filter of
`_fetch_from_database` (line 158): case-insensitive substring match of the
query inside the event's location. -/
def location_matches (location_query : String) (e : EventDict) : Bool :=
  list_has_sub (str_lower e.location) (str_lower location_query)

/-- Sort relation of the listing read path: `start` descending — the key
function `x.get('start', '')` with `reverse=True` in
`_filter_cached_events`, and `ORDER BY start DESC` in
`_fetch_from_database`. -/
def start_ge (a b : EventDict) : Prop := b.start ≤ a.start

instance : DecidableRel start_ge := fun a b =>
  inferInstanceAs (Decidable (b.start ≤ a.start))

instance : IsTotal EventDict start_ge :=
  ⟨fun a b => (Nat.le_total a.start b.start).symm⟩

instance : IsTrans EventDict start_ge :=
  ⟨fun _ _ _ hab hbc => le_trans hbc hab⟩

/-- `EventsCacheService._filter_cached_events`: exact category match,
case-insensitive location substring match, then a stable sort by `start`
descending.  `Option.none` for a filter models the Python falsy values
(`None` and the empty string) that skip that filter. -/
def _filter_cached_events (events : List EventDict) (category : Option String)
    (location_query : Option String) : List EventDict :=
  let filtered₁ :=
    match category with
    | some c => events.filter (fun e => e.category = some c)
    | none => events
  let filtered₂ :=
    match location_query with
    | some q => filtered₁.filter (location_matches q)
    | none => filtered₁
  List.insertionSort start_ge filtered₂

/-- `EventsCacheService._fetch_from_database`: the SQL semantics of the
store query — same filters, `ORDER BY start DESC`, `OFFSET skip`,
`LIMIT limit` — executed over the list of event rows `db`.  (The
`EventResponse` reshaping of each returned row is omitted: it is a
per-element conversion that touches no field used here.) -/
def _fetch_from_database (db : List EventDict) (skip limit : ℕ)
    (category : Option String) (location_query : Option String) : List EventDict :=
  let filtered₁ :=
    match category with
    | some c => db.filter (fun e => e.category = some c)
    | none => db
  let filtered₂ :=
    match location_query with
    | some q => filtered₁.filter (location_matches q)
    | none => filtered₁
  (((List.insertionSort start_ge filtered₂).drop skip).take limit)

/-- The 2-day cache union read at the start of
`get_cached_events_with_fallback`: the entries under today's and
yesterday's daily keys, concatenated in that order (a missing key or a
cache read error contributes nothing). -/
def cached_union (cache : String → Option (List EventDict))
    (todayKey ydayKey : String) : List EventDict :=
  ((cache todayKey).getD []) ++ ((cache ydayKey).getD [])

/-- `EventsCacheService.get_cached_events_with_fallback`: union the cached
entries under today's and yesterday's keys; if the union holds at least
`min_cache_threshold = 100` events, filter/sort/slice it in memory;
otherwise serve the request from the store and, when the fetched page is
non-empty, merge it (best-effort: `cacheWriteFails` models a swallowed
redis/serialization error) into today's cache key.  The cache is a map
from keys to the optional cached event list (`get_cached_events` returns
`None` both for a missing key and on a cache error).  Returns the response
list together with the cache state after the request. -/
def get_cached_events_with_fallback (cache : String → Option (List EventDict))
    (db : List EventDict) (todayKey ydayKey : String) (skip limit : ℕ)
    (category : Option String) (location_query : Option String)
    (cacheWriteFails : Bool) :
    List EventDict × (String → Option (List EventDict)) :=
  if 100 ≤ (cached_union cache todayKey ydayKey).length then
    (((_filter_cached_events (cached_union cache todayKey ydayKey)
        category location_query).drop skip).take limit,
      cache)
  else
    if _fetch_from_database db skip limit category location_query ≠ []
        ∧ cacheWriteFails = false then
      (_fetch_from_database db skip limit category location_query,
        fun k =>
          if k = todayKey then
            some (cache_merge_events (cache todayKey)
              (_fetch_from_database db skip limit category location_query))
          else cache k)
    else (_fetch_from_database db skip limit category location_query, cache)

theorem filter_cached_events_sorted (events : List EventDict)
    (category location_query : Option String) :
    List.Sorted start_ge (_filter_cached_events events category location_query) :=
  List.sorted_insertionSort start_ge _

theorem filter_cached_events_mem (events : List EventDict)
    (category location_query : Option String) (e : EventDict) :
    e ∈ _filter_cached_events events category location_query ↔
      e ∈ events ∧ (∀ c, category = some c → e.category = some c)
        ∧ (∀ q, location_query = some q → location_matches q e = true) := by
  unfold _filter_cached_events
  rw [(List.perm_insertionSort start_ge _).mem_iff]
  cases category <;> cases location_query <;>
    simp [List.mem_filter, and_assoc]
  tauto

theorem fetch_from_database_spec (db : List EventDict) (skip limit : ℕ)
    (category location_query : Option String) :
    (_fetch_from_database db skip limit category location_query).length ≤ limit
    ∧ List.Sorted start_ge (_fetch_from_database db skip limit category location_query)
    ∧ ∀ e ∈ _fetch_from_database db skip limit category location_query,
        e ∈ db ∧ (∀ c, category = some c → e.category = some c)
          ∧ (∀ q, location_query = some q → location_matches q e = true) := by
  have hsub : List.Sublist (_fetch_from_database db skip limit category location_query)
      (_filter_cached_events db category location_query) := by
    unfold _fetch_from_database _filter_cached_events
    exact (List.take_sublist _ _).trans (List.drop_sublist _ _)
  refine ⟨?_, ?_, ?_⟩
  · unfold _fetch_from_database
    exact (List.length_take_le _ _)
  · exact (filter_cached_events_sorted db category location_query).sublist hsub
  · intro e he
    exact (filter_cached_events_mem db category location_query e).mp (hsub.mem he)

/-- C3: when the 2-day cache union holds at least 100 events the cache is
authoritative — the response is the in-memory category/location
filter, `start`-descending sort and `skip`/`limit` slice of the cached
union, and the cache is untouched; when it holds fewer than 100 events the
response is the store query with equivalent filters, order and
offset/limit, and a non-empty store page is merged (best-effort, failures
swallowed) into today's cache key, all other keys unchanged.  The last
conjuncts record that both pipelines sort by `start` descending, apply the
same filters, restrict to their source, and that the store page respects
`limit`. -/
theorem get_cached_events_with_fallback_correct
    (cache : String → Option (List EventDict)) (db : List EventDict)
    (todayKey ydayKey : String) (skip limit : ℕ)
    (category location_query : Option String) (cacheWriteFails : Bool) :
    (100 ≤ (cached_union cache todayKey ydayKey).length →
      get_cached_events_with_fallback cache db todayKey ydayKey skip limit
          category location_query cacheWriteFails
        = (((_filter_cached_events (cached_union cache todayKey ydayKey)
              category location_query).drop skip).take limit, cache))
    ∧ ((cached_union cache todayKey ydayKey).length < 100 →
      (get_cached_events_with_fallback cache db todayKey ydayKey skip limit
            category location_query cacheWriteFails).1
          = _fetch_from_database db skip limit category location_query
        ∧ (cacheWriteFails = true →
            (get_cached_events_with_fallback cache db todayKey ydayKey skip limit
              category location_query cacheWriteFails).2 = cache)
        ∧ (_fetch_from_database db skip limit category location_query = [] →
            (get_cached_events_with_fallback cache db todayKey ydayKey skip limit
              category location_query cacheWriteFails).2 = cache)
        ∧ (cacheWriteFails = false →
            _fetch_from_database db skip limit category location_query ≠ [] →
            ((get_cached_events_with_fallback cache db todayKey ydayKey skip limit
                category location_query cacheWriteFails).2 todayKey
              = some (cache_merge_events (cache todayKey)
                  (_fetch_from_database db skip limit category location_query))
            ∧ ∀ k, k ≠ todayKey →
                (get_cached_events_with_fallback cache db todayKey ydayKey skip limit
                  category location_query cacheWriteFails).2 k = cache k)))
    ∧ (∀ (l : List EventDict) (e : EventDict),
        e ∈ _filter_cached_events l category location_query ↔
          e ∈ l ∧ (∀ c, category = some c → e.category = some c)
            ∧ (∀ q, location_query = some q → location_matches q e = true))
    ∧ List.Sorted start_ge
        (_filter_cached_events (cached_union cache todayKey ydayKey)
          category location_query)
    ∧ (_fetch_from_database db skip limit category location_query).length ≤ limit
    ∧ List.Sorted start_ge (_fetch_from_database db skip limit category location_query)
    ∧ (∀ e ∈ _fetch_from_database db skip limit category location_query,
        e ∈ db ∧ (∀ c, category = some c → e.category = some c)
          ∧ (∀ q, location_query = some q → location_matches q e = true)) := by
  have hfetch := fetch_from_database_spec db skip limit category location_query
  refine ⟨?_, ?_,
    (fun l e => filter_cached_events_mem l category location_query e),
    filter_cached_events_sorted _ category location_query,
    hfetch.1, hfetch.2.1, hfetch.2.2⟩
  · intro hc
    unfold get_cached_events_with_fallback
    rw [if_pos hc]
  · intro hlt
    have hcond : ¬ (100 ≤ (cached_union cache todayKey ydayKey).length) :=
      not_le.mpr hlt
    refine ⟨?_, ?_, ?_, ?_⟩
    · unfold get_cached_events_with_fallback
      rw [if_neg hcond]
      by_cases hw : _fetch_from_database db skip limit category location_query ≠ []
          ∧ cacheWriteFails = false
      · rw [if_pos hw]
      · rw [if_neg hw]
    · intro hwf
      unfold get_cached_events_with_fallback
      rw [if_neg hcond, if_neg (by simp [hwf])]
    · intro hnil
      unfold get_cached_events_with_fallback
      rw [if_neg hcond, if_neg (by simp [hnil])]
    · intro hwf hne
      unfold get_cached_events_with_fallback
      rw [if_neg hcond, if_pos ⟨hne, hwf⟩]
      exact ⟨by simp, fun k hk => by simp [hk]⟩

theorem get_cached_events_with_fallback_correct_witness :
    ((get_cached_events_with_fallback (fun _ => none)
        [⟨some ("1"), some ("music"), "Seattle, WA", 5, ""⟩]
        "etl_events:2025-01-02" "etl_events:2025-01-01" 0 100 none none false).1
      = _fetch_from_database [⟨some ("1"), some ("music"), "Seattle, WA", 5, ""⟩]
          0 100 none none)
    ∧ ((get_cached_events_with_fallback (fun _ => none)
        [⟨some ("1"), some ("music"), "Seattle, WA", 5, ""⟩]
        "etl_events:2025-01-02" "etl_events:2025-01-01" 0 100 none none false).2
          "etl_events:2025-01-02"
      = some (cache_merge_events none
          (_fetch_from_database [⟨some ("1"), some ("music"), "Seattle, WA", 5, ""⟩]
            0 100 none none))) := by
  have h := get_cached_events_with_fallback_correct (fun _ => none)
    [⟨some ("1"), some ("music"), "Seattle, WA", 5, ""⟩]
    "etl_events:2025-01-02" "etl_events:2025-01-01" 0 100 none none false
  have hlt : (cached_union (fun _ => none)
      "etl_events:2025-01-02" "etl_events:2025-01-01").length < 100 := by
    simp [cached_union]
  have h2 := h.2.1 hlt
  have hne : _fetch_from_database [⟨some ("1"), some ("music"), "Seattle, WA", 5, ""⟩]
      0 100 none none ≠ [] := by decide
  exact ⟨h2.1, (h2.2.2.2 rfl hne).1⟩

/-- One entry of the merged similar-events list built by
`SimilarityService.find_similar_events_by_id` (`similarity.py` lines
81-117): the candidate event's id, its similarity score (floats modelled
as rationals — the merge only compares scores) and its relationship
type. -/
structure SimilarEventEntry where
  event_id : String
  similarity_score : ℚ
  relationship_type : String
deriving DecidableEq, Repr

/-- Sort relation of the merged list: `similarity_score` descending
(`similar_events.sort(key=..., reverse=True)`, `similarity.py` line
120). -/
def sim_ge (a b : SimilarEventEntry) : Prop :=
  b.similarity_score ≤ a.similarity_score

instance : DecidableRel sim_ge := fun a b =>
  inferInstanceAs (Decidable (b.similarity_score ≤ a.similarity_score))

instance : IsTotal SimilarEventEntry sim_ge :=
  ⟨fun a b => (le_total a.similarity_score b.similarity_score).symm⟩

instance : IsTrans SimilarEventEntry sim_ge :=
  ⟨fun _ _ _ hab hbc => le_trans hbc hab⟩

/-- One step of methods 2 and 3 of the merge: append the candidate entry
unless its event id is already present in the accumulated list (the
`existing_ids` check recomputed inside each loop iteration,
`similarity.py` lines 99-101 and 111-112). -/
def add_unique (acc : List SimilarEventEntry) (e : SimilarEventEntry) :
    List SimilarEventEntry :=
  if e.event_id ∈ acc.map SimilarEventEntry.event_id then acc else acc ++ [e]

def add_unique_all (acc : List SimilarEventEntry) (xs : List SimilarEventEntry) :
    List SimilarEventEntry :=
  xs.foldl add_unique acc

theorem mem_add_unique_all_of_mem {acc : List SimilarEventEntry}
    (xs : List SimilarEventEntry) {a : SimilarEventEntry} (ha : a ∈ acc) :
    a ∈ add_unique_all acc xs := by
  induction xs generalizing acc with
  | nil => exact ha
  | cons x xs ih =>
    refine ih ?_
    unfold add_unique
    split
    · exact ha
    · exact List.mem_append_left _ ha

theorem mem_ids_add_unique_all_of_mem {acc : List SimilarEventEntry}
    (xs : List SimilarEventEntry) {i : String}
    (hi : i ∈ acc.map SimilarEventEntry.event_id) :
    i ∈ (add_unique_all acc xs).map SimilarEventEntry.event_id := by
  rcases List.mem_map.mp hi with ⟨a, ha, rfl⟩
  exact List.mem_map_of_mem _ (mem_add_unique_all_of_mem xs ha)

theorem add_unique_all_src {acc : List SimilarEventEntry}
    (xs : List SimilarEventEntry) {y : SimilarEventEntry}
    (hy : y ∈ add_unique_all acc xs) :
    y ∈ acc ∨ (y ∈ xs ∧ y.event_id ∉ acc.map SimilarEventEntry.event_id) := by
  induction xs generalizing acc with
  | nil => exact Or.inl hy
  | cons x xs ih =>
    rcases @ih (add_unique acc x) hy with hmem | ⟨hxs, hid⟩
    · unfold add_unique at hmem
      split at hmem
      · exact Or.inl hmem
      · rcases List.mem_append.mp hmem with h | h
        · exact Or.inl h
        · rcases List.mem_singleton.mp h with rfl
          exact Or.inr ⟨List.mem_cons_self _ _, by assumption⟩
    · refine Or.inr ⟨List.mem_cons_of_mem _ hxs, fun hc => hid ?_⟩
      unfold add_unique
      split
      · exact hc
      · rw [List.map_append, List.mem_append]
        exact Or.inl hc

theorem add_unique_all_ids {acc : List SimilarEventEntry}
    (xs : List SimilarEventEntry) {x : SimilarEventEntry} (hx : x ∈ xs) :
    x.event_id ∈ (add_unique_all acc xs).map SimilarEventEntry.event_id := by
  induction xs generalizing acc with
  | nil => cases hx
  | cons z xs ih =>
    rcases List.mem_cons.mp hx with rfl | hx
    · refine mem_ids_add_unique_all_of_mem xs ?_
      unfold add_unique
      split
      · assumption
      · rw [List.map_append, List.mem_append]
        exact Or.inr (by simp)
    · exact ih hx

theorem add_unique_all_nodup {acc : List SimilarEventEntry}
    (xs : List SimilarEventEntry)
    (h : (acc.map SimilarEventEntry.event_id).Nodup) :
    ((add_unique_all acc xs).map SimilarEventEntry.event_id).Nodup := by
  induction xs generalizing acc with
  | nil => exact h
  | cons x xs ih =>
    refine ih ?_
    unfold add_unique
    split
    · exact h
    · rw [List.map_append]
      refine List.Nodup.append h (by simp) ?_
      intro i hi hj
      rcases List.mem_singleton.mp (by simpa using hj) with rfl
      exact (by assumption : ¬ x.event_id ∈ acc.map SimilarEventEntry.event_id) hi

/-- Entry built from one vector nearest-neighbor match (method 1,
`similarity.py` lines 88-93). -/
def vector_entry (v : String × ℚ) : SimilarEventEntry :=
  { event_id := v.1, similarity_score := v.2, relationship_type := "similar" }

/-- Entry built from one curated related event id (method 2, lines
98-106): fixed maximal score 1.0 and relationship type "related". -/
def related_entry (r : String) : SimilarEventEntry :=
  { event_id := r, similarity_score := 1, relationship_type := "related" }

/-- Entry built from one precomputed `EventSimilarity` row (method 3,
lines 110-117). -/
def stored_entry (s : String × ℚ × String) : SimilarEventEntry :=
  { event_id := s.1, similarity_score := s.2.1, relationship_type := s.2.2 }

/-- The three-source accumulation of
`SimilarityService.find_similar_events_by_id` before the final sort and
truncation: vector matches appended unconditionally, then curated related
ids, then precomputed similarity rows, the latter two each skipped when
the candidate id is already present.  The three query results
(nearest-neighbor matches, the related events fetched for
`related_event_ids`, and the `EventSimilarity` rows joined with their
partner event) enter as parameters. -/
def merge_three (vector : List (String × ℚ)) (related : List String)
    (stored : List (String × ℚ × String)) : List SimilarEventEntry :=
  let method1 := vector.map vector_entry
  let method2 := add_unique_all method1 (related.map related_entry)
  add_unique_all method2 (stored.map stored_entry)

/-- `SimilarityService.find_similar_events_by_id` (result list only):
merge the three sources, sort by similarity score descending (stable),
truncate to `limit`. -/
def similarity_find_similar_events_by_id (vector : List (String × ℚ))
    (related : List String) (stored : List (String × ℚ × String))
    (limit : ℕ) : List SimilarEventEntry :=
  (List.insertionSort sim_ge (merge_three vector related stored)).take limit

theorem merge_three_ids_super (vector : List (String × ℚ))
    (related : List String) (stored : List (String × ℚ × String)) :
    (∀ i ∈ vector.map Prod.fst,
        i ∈ (merge_three vector related stored).map SimilarEventEntry.event_id)
    ∧ (∀ r ∈ related,
        r ∈ (merge_three vector related stored).map SimilarEventEntry.event_id) := by
  constructor
  · intro i hi
    rcases List.mem_map.mp hi with ⟨v, hv, rfl⟩
    have h1 : vector_entry v ∈ vector.map vector_entry := List.mem_map_of_mem _ hv
    have h2 := mem_add_unique_all_of_mem (related.map related_entry) h1
    have h3 := mem_add_unique_all_of_mem (stored.map stored_entry) h2
    exact List.mem_map_of_mem _ h3
  · intro r hr
    have h1 : related_entry r ∈ related.map related_entry := List.mem_map_of_mem _ hr
    have h2 := @add_unique_all_ids (vector.map vector_entry)
      (related.map related_entry) _ h1
    rcases List.mem_map.mp h2 with ⟨y, hy, hid⟩
    have h3 := mem_add_unique_all_of_mem (stored.map stored_entry) hy
    have hid2 : y.event_id = r := hid
    rw [← hid2]
    exact List.mem_map_of_mem _ h3

theorem method1_ids (vector : List (String × ℚ)) :
    (vector.map vector_entry).map SimilarEventEntry.event_id
      = vector.map Prod.fst := by
  simp [vector_entry, List.map_map, Function.comp]

/-- C1: for every similarity-by-ID request, the result of
`find_similar_events_by_id` is the three-source merge — vector matches
first, then curated related ids at score 1.0 with type "related", then
precomputed `EventSimilarity` rows — deduplicated by candidate event id
with first-source-wins, sorted by similarity score descending and
truncated to the requested limit.  Conjuncts: length ≤ limit; sorted
descending; the result draws from the merged list; merged ids are
duplicate-free (given the vector matches are, as distinct rows of one SQL
query); every vector match appears with its own score and type "similar";
every curated id absent from the vector matches appears at score 1.0 /
type "related"; every stored row's candidate id is represented; and every
merged entry either is a vector match, or is a curated entry whose id is
not among the vector matches, or is a stored entry whose id is in neither
earlier source — so a candidate already present from an earlier source is
never re-added under a later source's score or relationship type. -/
theorem find_similar_events_by_id_merge_correct (vector : List (String × ℚ))
    (related : List String) (stored : List (String × ℚ × String)) (limit : ℕ) :
    (similarity_find_similar_events_by_id vector related stored limit).length ≤ limit
    ∧ List.Sorted sim_ge (similarity_find_similar_events_by_id vector related stored limit)
    ∧ (∀ e ∈ similarity_find_similar_events_by_id vector related stored limit,
        e ∈ merge_three vector related stored)
    ∧ ((vector.map Prod.fst).Nodup →
        ((merge_three vector related stored).map SimilarEventEntry.event_id).Nodup
        ∧ ((similarity_find_similar_events_by_id vector related stored limit).map
            SimilarEventEntry.event_id).Nodup)
    ∧ (∀ v ∈ vector, vector_entry v ∈ merge_three vector related stored)
    ∧ (∀ r ∈ related, r ∉ vector.map Prod.fst →
        related_entry r ∈ merge_three vector related stored)
    ∧ (∀ s ∈ stored,
        s.1 ∈ (merge_three vector related stored).map SimilarEventEntry.event_id)
    ∧ (∀ e ∈ merge_three vector related stored,
        e ∈ vector.map vector_entry
        ∨ (e.relationship_type = "related" ∧ e.similarity_score = 1
            ∧ e.event_id ∈ related ∧ e.event_id ∉ vector.map Prod.fst)
        ∨ (e ∈ stored.map stored_entry
            ∧ e.event_id ∉ vector.map Prod.fst ∧ e.event_id ∉ related)) := by
  have hm1 := method1_ids vector
  have hsub : List.Sublist (similarity_find_similar_events_by_id vector related stored limit)
      (List.insertionSort sim_ge (merge_three vector related stored)) :=
    List.take_sublist _ _
  have hperm : List.Perm (List.insertionSort sim_ge (merge_three vector related stored))
      (merge_three vector related stored) :=
    List.perm_insertionSort sim_ge _
  refine ⟨List.length_take_le _ _,
    (List.sorted_insertionSort sim_ge _).sublist hsub,
    fun e he => hperm.subset (hsub.mem he), ?_, ?_, ?_, ?_, ?_⟩
  · intro hv
    have hMn : ((merge_three vector related stored).map SimilarEventEntry.event_id).Nodup := by
      refine add_unique_all_nodup _ (add_unique_all_nodup _ ?_)
      rw [hm1]
      exact hv
    refine ⟨hMn, ?_⟩
    have hsn : ((List.insertionSort sim_ge (merge_three vector related stored)).map
        SimilarEventEntry.event_id).Nodup :=
      ((hperm.map SimilarEventEntry.event_id).nodup_iff).mpr hMn
    exact ((hsub.map SimilarEventEntry.event_id).nodup hsn)
  · intro v hv
    exact mem_add_unique_all_of_mem _
      (mem_add_unique_all_of_mem _ (List.mem_map_of_mem _ hv))
  · intro r hr hnv
    have h1 : related_entry r ∈ related.map related_entry := List.mem_map_of_mem _ hr
    have h2 := @add_unique_all_ids (vector.map vector_entry)
      (related.map related_entry) _ h1
    rcases List.mem_map.mp h2 with ⟨y, hy, hid⟩
    have hid2 : y.event_id = r := hid
    rcases add_unique_all_src _ hy with hy1 | ⟨hyr, -⟩
    · exfalso
      apply hnv
      rw [← hid2, ← hm1]
      exact List.mem_map_of_mem _ hy1
    · rcases List.mem_map.mp hyr with ⟨r2, hr2, hyeq⟩
      have h5 : (related_entry r2).event_id = y.event_id := by rw [hyeq]
      have hrr : r2 = r := by simpa [related_entry] using h5.trans hid2
      rw [← hrr, hyeq]
      exact mem_add_unique_all_of_mem _ hy
  · intro s hs
    exact add_unique_all_ids _ (List.mem_map_of_mem _ hs)
  · intro e he
    rcases add_unique_all_src _ he with he2 | ⟨hes, hid⟩
    · rcases add_unique_all_src _ he2 with he1 | ⟨her, hid1⟩
      · exact Or.inl he1
      · rcases List.mem_map.mp her with ⟨r2, hr2, rfl⟩
        refine Or.inr (Or.inl ⟨rfl, rfl, hr2, ?_⟩)
        rw [← hm1]
        exact hid1
    · refine Or.inr (Or.inr ⟨hes, ?_, ?_⟩)
      · intro hc
        apply hid
        refine mem_ids_add_unique_all_of_mem _ ?_
        rw [hm1]
        exact hc
      · intro hc
        apply hid
        have h1 : related_entry e.event_id ∈ related.map related_entry :=
          List.mem_map_of_mem _ hc
        exact @add_unique_all_ids (vector.map vector_entry)
          (related.map related_entry) (related_entry e.event_id) h1

theorem find_similar_events_by_id_merge_correct_witness :
    ((merge_three [("a", (9 : ℚ)/10)] ["b"] [("c", (1 : ℚ)/2, "similar")]).map
        SimilarEventEntry.event_id).Nodup
    ∧ related_entry "b" ∈ merge_three [("a", (9 : ℚ)/10)] ["b"]
        [("c", (1 : ℚ)/2, "similar")]
    ∧ (similarity_find_similar_events_by_id [("a", (9 : ℚ)/10)] ["b"]
        [("c", (1 : ℚ)/2, "similar")] 2).length ≤ 2 := by
  have h := find_similar_events_by_id_merge_correct [("a", (9 : ℚ)/10)] ["b"]
    [("c", (1 : ℚ)/2, "similar")] 2
  exact ⟨(h.2.2.2.1 (by decide)).1,
    h.2.2.2.2.2.1 "b" (by decide) (by decide),
    h.1⟩

/-- `np.dot` on two equal-length float vectors, over the reals (trailing
elements of the longer list are ignored; every use in the code either
checks equal lengths first or passes a vector against itself). -/
def dotList : List ℝ → List ℝ → ℝ
  | a :: as, b :: bs => a * b + dotList as bs
  | _, _ => 0

theorem dotList_self_nonneg (v : List ℝ) : 0 ≤ dotList v v := by
  induction v with
  | nil => simp [dotList]
  | cons x xs ih =>
    have : 0 ≤ x * x := mul_self_nonneg x
    simpa [dotList] using add_nonneg this ih

theorem dotList_self_pos (v : List ℝ) (hv : ∃ x ∈ v, x ≠ 0) :
    0 < dotList v v := by
  induction v with
  | nil => simp at hv
  | cons x xs ih =>
    rcases hv with ⟨y, hy, hyne⟩
    rcases List.mem_cons.mp hy with rfl | hy
    · have hx : 0 < y * y := mul_self_pos.mpr hyne
      simpa [dotList] using add_pos_of_pos_of_nonneg hx (dotList_self_nonneg xs)
    · have hxs : 0 < dotList xs xs := ih ⟨y, hy, hyne⟩
      simpa [dotList] using add_pos_of_nonneg_of_pos (mul_self_nonneg x) hxs

theorem dotList_eq_sum (a : List ℝ) :
    ∀ b : List ℝ, a.length = b.length →
      dotList a b = ∑ i ∈ Finset.range a.length, a.getD i 0 * b.getD i 0 := by
  induction a with
  | nil =>
    intro b hb
    simp [dotList]
  | cons x xs ih =>
    intro b hb
    cases b with
    | nil => simp at hb
    | cons y ys =>
      have hlen : xs.length = ys.length := by simpa using hb
      have hrec := ih ys hlen
      show x * y + dotList xs ys = _
      rw [List.length_cons, Finset.sum_range_succ']
      simp only [List.getD_cons_succ, List.getD_cons_zero]
      rw [hrec]
      ring

theorem dotList_sq_le (a b : List ℝ) (h : a.length = b.length) :
    (dotList a b) ^ 2 ≤ dotList a a * dotList b b := by
  rw [dotList_eq_sum a b h, dotList_eq_sum a a rfl, dotList_eq_sum b b rfl, ← h]
  have hcs := Finset.sum_mul_sq_le_sq_mul_sq (Finset.range a.length)
    (fun i => a.getD i 0) (fun i => b.getD i 0)
  simpa [pow_two] using hcs

theorem dotList_replicate_zero (n : ℕ) :
    dotList (List.replicate n (0 : ℝ)) (List.replicate n 0) = 0 := by
  induction n with
  | zero => simp [dotList]
  | succ k ih => simpa [List.replicate_succ, dotList] using ih

/-- `np.linalg.norm` of a float vector, over the reals. -/
noncomputable def normList (v : List ℝ) : ℝ := Real.sqrt (dotList v v)

/-- `EmbeddingService.cosine_similarity` (`embedding.py` lines 159-190):
`dot(a,b) / (||a|| * ||b||)`, with 0.0 returned when either norm is zero.
Over the reals the `np.isnan(similarity)` guard (which also returns 0.0)
has nothing to catch: the only NaN source, 0/0, is already excluded by the
zero-norm guard, and real division never produces NaN. -/
noncomputable def cosine_similarity (embedding1 embedding2 : List ℝ) : ℝ :=
  if normList embedding1 = 0 ∨ normList embedding2 = 0 then 0
  else dotList embedding1 embedding2 / (normList embedding1 * normList embedding2)

/-- C4: for finite non-zero vectors `a`, `b` of equal length,
`cosine_similarity a b` lies in `[-1, 1]`; `cosine_similarity a a = 1`
exactly (over the reals the floating tolerance is not needed); the cosine
similarity of any vector with an all-zero vector is 0; and the result is
a total real number — the NaN guard collapses the only NaN-producing
case, 0/0, to 0 (see `cosine_similarity`). -/
theorem cosine_similarity_bounds (a b : List ℝ) (hlen : a.length = b.length)
    (ha : ∃ x ∈ a, x ≠ 0) (hb : ∃ y ∈ b, y ≠ 0) :
    (-1 ≤ cosine_similarity a b ∧ cosine_similarity a b ≤ 1)
    ∧ cosine_similarity a a = 1
    ∧ (∀ (v : List ℝ) (n : ℕ),
        cosine_similarity v (List.replicate n 0) = 0
        ∧ cosine_similarity (List.replicate n 0) v = 0) := by
  have hda : 0 < dotList a a := dotList_self_pos a ha
  have hdb : 0 < dotList b b := dotList_self_pos b hb
  have hna : 0 < normList a := Real.sqrt_pos.mpr hda
  have hnb : 0 < normList b := Real.sqrt_pos.mpr hdb
  have hcond : ¬ (normList a = 0 ∨ normList b = 0) := by
    rintro (h | h)
    · exact absurd h (ne_of_gt hna)
    · exact absurd h (ne_of_gt hnb)
  have habs : |dotList a b| ≤ normList a * normList b := by
    rw [← Real.sqrt_sq_eq_abs]
    unfold normList
    rw [← Real.sqrt_mul (dotList_self_nonneg a)]
    exact Real.sqrt_le_sqrt (dotList_sq_le a b hlen)
  have hD : 0 < normList a * normList b := mul_pos hna hnb
  refine ⟨?_, ?_, ?_⟩
  · rw [cosine_similarity, if_neg hcond]
    constructor
    · rw [le_div_iff₀ hD]
      have := (abs_le.mp habs).1
      linarith
    · rw [div_le_one hD]
      exact (abs_le.mp habs).2
  · have hcond2 : ¬ (normList a = 0 ∨ normList a = 0) := by
      rintro (h | h) <;> exact absurd h (ne_of_gt hna)
    rw [cosine_similarity, if_neg hcond2]
    unfold normList
    rw [Real.mul_self_sqrt (le_of_lt hda)]
    exact div_self (ne_of_gt hda)
  · intro v n
    have hz : normList (List.replicate n (0 : ℝ)) = 0 := by
      unfold normList
      rw [dotList_replicate_zero, Real.sqrt_zero]
    constructor
    · rw [cosine_similarity, if_pos (Or.inr hz)]
    · rw [cosine_similarity, if_pos (Or.inl hz)]

theorem cosine_similarity_bounds_witness :
    ((-1 ≤ cosine_similarity [1] [1] ∧ cosine_similarity [1] [1] ≤ 1)
    ∧ cosine_similarity [1] [1] = 1
    ∧ (∀ (v : List ℝ) (n : ℕ),
        cosine_similarity v (List.replicate n 0) = 0
        ∧ cosine_similarity (List.replicate n 0) v = 0)) :=
  cosine_similarity_bounds [1] [1] rfl
    ⟨1, List.mem_singleton_self 1, one_ne_zero⟩
    ⟨1, List.mem_singleton_self 1, one_ne_zero⟩

/-- An `events` table row as used by `enhanced_similarity.py`: the id and
the (possibly NULL) embedding vector; the remaining columns are carried
through unexamined and are not modelled. -/
structure EEvent where
  id : String
  embeddings : Option (List ℝ)

/-- Sort relation on `(event, score)` pairs: score descending (the SQL
`ORDER BY embeddings <=> :embedding ASC` — distance ascending is
similarity descending — and the Python `similarities.sort(key=lambda x:
x[1], reverse=True)` of the fallback). -/
def sim_pair_ge (a b : EEvent × ℝ) : Prop := b.2 ≤ a.2

noncomputable instance : DecidableRel sim_pair_ge := fun a b =>
  inferInstanceAs (Decidable (b.2 ≤ a.2))

instance : IsTotal (EEvent × ℝ) sim_pair_ge :=
  ⟨fun a b => (le_total a.2 b.2).symm⟩

instance : IsTrans (EEvent × ℝ) sim_pair_ge :=
  ⟨fun _ _ _ hab hbc => le_trans hbc hab⟩

/-- The `id != :exclude_id` condition, applied only when an exclude id was
supplied. -/
def not_excluded (exclude_event_id : Option String) (e : EEvent) : Bool :=
  match exclude_event_id with
  | some x => e.id ≠ x
  | none => true

/-- The similarity score computed by pgvector in
`_find_by_vector_similarity`: `1 - (embeddings <=> q)` where `<=>` is the
cosine-distance operator, i.e. the cosine of the two vectors.  (The
zero-norm corner is never exercised by the claims; real division by zero
yields 0 here where pgvector would yield no meaningful row.) -/
noncomputable def pg_cosine_similarity (emb q : List ℝ) : ℝ :=
  dotList emb q / (normList emb * normList q)

/-- One row of the native vector query's `WHERE`/`SELECT` clause: rows
with a NULL embedding or the excluded id or similarity below
`min_similarity` are dropped, kept rows carry their similarity score. -/
noncomputable def sql_row (query_embedding : List ℝ) (min_similarity : ℝ)
    (exclude_event_id : Option String) (e : EEvent) : Option (EEvent × ℝ) :=
  match e.embeddings with
  | some emb =>
      if not_excluded exclude_event_id e then
        if min_similarity ≤ pg_cosine_similarity emb query_embedding then
          some (e, pg_cosine_similarity emb query_embedding)
        else none
      else none
  | none => none

/-- The native path of
`EnhancedSimilarityService._find_by_vector_similarity` (the parameterized
SQL of `enhanced_similarity.py` lines 193-278), executed over the event
rows `db`: keep rows per `sql_row`; order by similarity descending;
`LIMIT limit`.  (The per-row Python-object conversion, whose per-row
errors only skip that row, is the identity here.) -/
noncomputable def _find_by_vector_similarity_sql (db : List EEvent)
    (query_embedding : List ℝ) (limit : ℕ) (min_similarity : ℝ)
    (exclude_event_id : Option String) : List (EEvent × ℝ) :=
  (List.insertionSort sim_pair_ge
    (db.filterMap (sql_row query_embedding min_similarity exclude_event_id))).take limit

/-- The candidate set loaded by the fallback: the SQL
`SELECT ... WHERE embeddings IS NOT NULL [AND id != :ex] LIMIT 500`
(`enhanced_similarity.py` lines 300-305). -/
def manual_candidates (db : List EEvent) (exclude_event_id : Option String) :
    List EEvent :=
  (db.filter (fun e => e.embeddings.isSome && not_excluded exclude_event_id e)).take 500

/-- `EnhancedSimilarityService._manual_similarity_search`
(`enhanced_similarity.py` lines 289-337): load at most 500 events that
have embeddings (excluding the given id), skip empty and length-mismatched
vectors and zero norms, keep cosine similarity ≥ `min_similarity`, sort
descending, take `limit`. -/
noncomputable def _manual_similarity_search (db : List EEvent)
    (query_embedding : List ℝ) (limit : ℕ) (min_similarity : ℝ)
    (exclude_event_id : Option String) : List (EEvent × ℝ) :=
  let similarities := (manual_candidates db exclude_event_id).filterMap (fun e =>
    match e.embeddings with
    | some emb =>
        if emb ≠ [] then
          if emb.length = query_embedding.length then
            if 0 < normList query_embedding ∧ 0 < normList emb then
              if min_similarity ≤
                  dotList query_embedding emb
                    / (normList query_embedding * normList emb) then
                some (e, dotList query_embedding emb
                  / (normList query_embedding * normList emb))
              else none
            else none
          else none
        else none
    | none => none)
  (List.insertionSort sim_pair_ge similarities).take limit

/-- `EnhancedSimilarityService._find_by_vector_similarity`: the native SQL
vector query, falling back to `_manual_similarity_search` only when the
SQL query raises (`nativeFails`); a native query that merely returns zero
rows is returned as-is. -/
noncomputable def _find_by_vector_similarity (db : List EEvent)
    (query_embedding : List ℝ) (limit : ℕ) (min_similarity : ℝ)
    (exclude_event_id : Option String) (nativeFails : Bool) : List (EEvent × ℝ) :=
  if nativeFails then
    _manual_similarity_search db query_embedding limit min_similarity exclude_event_id
  else
    _find_by_vector_similarity_sql db query_embedding limit min_similarity exclude_event_id

/-- `EnhancedSimilarityService.find_similar_events_by_id`
(`enhanced_similarity.py` lines 36-61): look up the source event; if it is
absent or has no (or an empty) embedding, return `[]`; otherwise search by
its embedding, excluding the event itself. -/
noncomputable def enhanced_find_similar_events_by_id (db : List EEvent)
    (event_id : String) (limit : ℕ) (min_similarity : ℝ)
    (nativeFails : Bool) : List (EEvent × ℝ) :=
  match db.find? (fun e => e.id == event_id) with
  | none => []
  | some source_event =>
      match source_event.embeddings with
      | none => []
      | some emb =>
          match emb with
          | [] => []
          | _ :: _ =>
              _find_by_vector_similarity db emb limit min_similarity
                (some event_id) nativeFails

/-- `EmbeddingService._clean_text`: strip, collapse internal whitespace,
truncate to 8000 characters. -/
def _clean_text (text : String) : String :=
  let joined := " ".intercalate ((text.split Char.isWhitespace).filter (fun s => s ≠ ""))
  if joined.length > 8000 then joined.take 8000 else joined

/-- `EmbeddingService.generate_embedding` (`embedding.py` lines 20-61):
clean the text (empty → sentinel), call the provider (`provider` is its
outcome; any raised exception is caught and mapped to the sentinel),
replace an empty or NaN/Inf-containing response (`values_invalid` models
the `np.isnan`/`np.isinf` detection, unrepresentable over ℝ) by the
sentinel.  The sentinel is `[0.1] * dimension`. -/
noncomputable def generate_embedding (dimension : ℕ) (text : String)
    (provider : Except Unit (List ℝ)) (values_invalid : Bool) : List ℝ :=
  if _clean_text text = "" then List.replicate dimension (0.1 : ℝ)
  else
    match provider with
    | Except.error _ => List.replicate dimension (0.1 : ℝ)
    | Except.ok values =>
        match values with
        | [] => List.replicate dimension (0.1 : ℝ)
        | v :: vs =>
            if values_invalid then List.replicate dimension (0.1 : ℝ)
            else v :: vs

/-- `EnhancedSimilarityService.find_similar_events_by_text`: generate the
query embedding, then vector search with it. -/
noncomputable def find_similar_events_by_text (db : List EEvent) (dimension : ℕ)
    (query_text : String) (provider : Except Unit (List ℝ)) (values_invalid : Bool)
    (limit : ℕ) (min_similarity : ℝ) (exclude_event_id : Option String)
    (nativeFails : Bool) : List (EEvent × ℝ) :=
  _find_by_vector_similarity db
    (generate_embedding dimension query_text provider values_invalid)
    limit min_similarity exclude_event_id nativeFails

/-- Response shape of the similarity endpoints
(`SimilaritySearchResponse`). -/
structure SimilaritySearchResponseM where
  query_event : Option EEvent
  similar_events : List (EEvent × ℝ)
  total_found : ℕ

/-- `POST /events/search/similar` (`api/routes/events.py` lines 49-129).
Empty query strings are falsy in Python and modelled as `none`.  Both
populated branches raise before any search runs: the event-id branch calls
`enhanced_similarity_service.find_similar_events_by_id(event_id=...,
limit=...)` without the required positional `session` argument (a
`TypeError`, caught by the blanket handler → HTTP 500), and the text
branch calls `enhanced_similarity_service.find_similar_events(...)`, a
method that does not exist (an `AttributeError`, mapped inside the text
branch → HTTP 500).  `request_limit` is the caller-supplied limit, unused
because the handler hardcodes `similarity_limit = 5` before reaching the
broken calls (hence unused here too). -/
def search_similar_events (query_text event_id : Option String)
    (_request_limit : ℕ) : Except (ℕ × String) SimilaritySearchResponseM :=
  if query_text = none ∧ event_id = none then
    Except.error (400, "Either query_text or event_id must be provided")
  else
    match event_id with
    | some _ => Except.error (500, "Error performing similarity search")
    | none => Except.error (500, "Similarity search failed")

/-- The `try`-block body of `GET /events/{event_id}/similar`
(`api/routes/events.py` lines 164-196): run the enhanced search with the
caller's limit capped at `min(limit, 5)`, look up the source event, and
raise `HTTPException(404, "Event not found")` when it is absent. -/
noncomputable def get_similar_events_body (db : List EEvent) (event_id : String)
    (limit : ℕ) (min_similarity : ℝ) (nativeFails : Bool) :
    Except (ℕ × String) SimilaritySearchResponseM :=
  let similar :=
    enhanced_find_similar_events_by_id db event_id (min limit 5) min_similarity
      nativeFails
  match db.find? (fun e => e.id == event_id) with
  | none => Except.error (404, "Event not found")
  | some source_event =>
      Except.ok
        { query_event := some source_event
          similar_events := similar
          total_found := similar.length }

/-- `GET /events/{event_id}/similar` as served: the blanket
`except Exception` at lines 198-200 catches every exception raised in the
body — including the `HTTPException(404)` it raised itself — and replies
HTTP 500 "Error finding similar events". -/
noncomputable def get_similar_events (db : List EEvent) (event_id : String)
    (limit : ℕ) (min_similarity : ℝ) (nativeFails : Bool) :
    Except (ℕ × String) SimilaritySearchResponseM :=
  match get_similar_events_body db event_id limit min_similarity nativeFails with
  | Except.ok r => Except.ok r
  | Except.error _ => Except.error (500, "Error finding similar events")

theorem find_by_vector_similarity_length_le (db : List EEvent)
    (q : List ℝ) (limit : ℕ) (minSim : ℝ) (ex : Option String) (fails : Bool) :
    (_find_by_vector_similarity db q limit minSim ex fails).length ≤ limit := by
  unfold _find_by_vector_similarity
  split
  · exact List.length_take_le _ _
  · exact List.length_take_le _ _

theorem enhanced_find_length_le (db : List EEvent) (event_id : String)
    (limit : ℕ) (minSim : ℝ) (fails : Bool) :
    (enhanced_find_similar_events_by_id db event_id limit minSim fails).length
      ≤ limit := by
  unfold enhanced_find_similar_events_by_id
  split
  · simp
  · split
    · simp
    · split
      · simp
      · exact find_by_vector_similarity_length_le _ _ _ _ _ _

theorem not_excluded_spec {ex : Option String} {e : EEvent}
    (h : not_excluded ex e = true) : ∀ x, ex = some x → e.id ≠ x := by
  intro x hx
  subst hx
  simpa [not_excluded] using h

theorem manual_similarity_search_spec (db : List EEvent) (q : List ℝ)
    (limit : ℕ) (minSim : ℝ) (ex : Option String) :
    (_manual_similarity_search db q limit minSim ex).length ≤ limit
    ∧ List.Sorted sim_pair_ge (_manual_similarity_search db q limit minSim ex)
    ∧ ∀ p ∈ _manual_similarity_search db q limit minSim ex,
        p.1 ∈ manual_candidates db ex
        ∧ (∃ emb, p.1.embeddings = some emb ∧ emb.length = q.length
            ∧ p.2 = dotList q emb / (normList q * normList emb))
        ∧ minSim ≤ p.2
        ∧ (∀ x, ex = some x → p.1.id ≠ x) := by
  refine ⟨List.length_take_le _ _,
    (List.sorted_insertionSort sim_pair_ge _).sublist (List.take_sublist _ _), ?_⟩
  intro p hp
  have hp2 : p ∈ (manual_candidates db ex).filterMap _ :=
    (List.perm_insertionSort sim_pair_ge _).subset
      ((List.take_sublist _ _).mem hp)
  rcases List.mem_filterMap.mp hp2 with ⟨e, he, hfe⟩
  have hexc : ∀ x, ex = some x → e.id ≠ x := by
    have hmem := (List.take_sublist _ _).mem he
    have hflt := (List.mem_filter.mp hmem).2
    exact not_excluded_spec (Bool.and_elim_right (by simpa using hflt))
  cases hee : e.embeddings with
  | none => rw [hee] at hfe; exact absurd hfe (by simp)
  | some emb =>
    rw [hee] at hfe
    dsimp only at hfe
    split_ifs at hfe with h1 h2 h3 h4
    · cases hfe
      exact ⟨he, ⟨emb, hee, h2, rfl⟩, h4, hexc⟩

/-- C2: the brute-force fallback runs exactly when the native vector-index
query raises (`nativeFails = true`) and never when it merely returns zero
rows — on a successful native query (failing or not to find rows) the SQL
result is returned as-is; and the fallback itself draws only from the at
most 500 candidates that have embeddings and are not the excluded event,
skips candidates whose vector length differs from the query vector's,
returns only candidates whose cosine similarity reaches `min_similarity`,
sorted descending by score, with at most `limit` entries. -/
theorem vector_similarity_fallback_correct (db : List EEvent) (q : List ℝ)
    (limit : ℕ) (minSim : ℝ) (ex : Option String) (fails : Bool) :
    (fails = false →
      _find_by_vector_similarity db q limit minSim ex fails
        = _find_by_vector_similarity_sql db q limit minSim ex)
    ∧ (fails = true →
      _find_by_vector_similarity db q limit minSim ex fails
        = _manual_similarity_search db q limit minSim ex)
    ∧ (_manual_similarity_search db q limit minSim ex).length ≤ limit
    ∧ List.Sorted sim_pair_ge (_manual_similarity_search db q limit minSim ex)
    ∧ (∀ p ∈ _manual_similarity_search db q limit minSim ex,
        p.1 ∈ manual_candidates db ex
        ∧ (∃ emb, p.1.embeddings = some emb ∧ emb.length = q.length
            ∧ p.2 = dotList q emb / (normList q * normList emb))
        ∧ minSim ≤ p.2
        ∧ (∀ x, ex = some x → p.1.id ≠ x)) := by
  have hspec := manual_similarity_search_spec db q limit minSim ex
  refine ⟨?_, ?_, hspec.1, hspec.2.1, hspec.2.2⟩
  · intro h
    subst h
    rfl
  · intro h
    subst h
    rfl

theorem vector_similarity_fallback_correct_witness :
    (_find_by_vector_similarity [] [] 5 0 none true
      = _manual_similarity_search [] [] 5 0 none)
    ∧ (_find_by_vector_similarity [] [] 5 0 none false
      = _find_by_vector_similarity_sql [] [] 5 0 none)
    ∧ (_manual_similarity_search [] [] 5 0 none).length ≤ 5 :=
  ⟨(vector_similarity_fallback_correct [] [] 5 0 none true).2.1 rfl,
    (vector_similarity_fallback_correct [] [] 5 0 none false).1 rfl,
    (vector_similarity_fallback_correct [] [] 5 0 none true).2.2.1⟩

/-- C6 (code bug): the per-event similar endpoint does cap the result
count at `min(limit, 5) ≤ 5`; but the primary `/search/similar` endpoint
never returns a result list at all — with an event id it calls
`find_similar_events_by_id` without the required `session` argument
(TypeError), and with a query text it calls the nonexistent method
`find_similar_events` (AttributeError), so every populated request is
answered with HTTP 500 rather than with up to 5 similar events. -/
theorem similarity_endpoints_result_cap :
    (∀ (query_text event_id : Option String) (request_limit : ℕ),
        (query_text ≠ none ∨ event_id ≠ none) →
        ∃ msg, search_similar_events query_text event_id request_limit
          = Except.error (500, msg))
    ∧ (∀ (db : List EEvent) (event_id : String) (limit : ℕ) (minSim : ℝ)
        (fails : Bool) (r : SimilaritySearchResponseM),
        get_similar_events db event_id limit minSim fails = Except.ok r →
        r.similar_events.length ≤ min limit 5 ∧ r.similar_events.length ≤ 5) := by
  constructor
  · intro qt eid rl h
    unfold search_similar_events
    cases eid with
    | some x =>
        rw [if_neg (by simp)]
        exact ⟨"Error performing similarity search", rfl⟩
    | none =>
        have hqt : qt ≠ none := by
          rcases h with h | h
          · exact h
          · exact absurd rfl h
        rw [if_neg (by simp [hqt])]
        exact ⟨"Similarity search failed", rfl⟩
  · intro db eid limit minSim fails r hok
    unfold get_similar_events at hok
    cases hbody : get_similar_events_body db eid limit minSim fails with
    | error err =>
        rw [hbody] at hok
        exact absurd hok (by simp)
    | ok r2 =>
        rw [hbody] at hok
        have hr2 : r2 = r := by
          have : Except.ok (ε := ℕ × String) r2 = Except.ok r := hok
          injection this
        subst hr2
        unfold get_similar_events_body at hbody
        cases hfind : db.find? (fun e => e.id == eid) with
        | none =>
            rw [hfind] at hbody
            exact absurd hbody (by simp)
        | some src =>
            rw [hfind] at hbody
            have hrec :
                ({ query_event := some src
                   similar_events := enhanced_find_similar_events_by_id db eid
                     (min limit 5) minSim fails
                   total_found := (enhanced_find_similar_events_by_id db eid
                     (min limit 5) minSim fails).length } : SimilaritySearchResponseM)
                  = r2 := by
              injection hbody
            have hlen : r2.similar_events.length ≤ min limit 5 := by
              rw [← hrec]
              exact enhanced_find_length_le db eid (min limit 5) minSim fails
            exact ⟨hlen, le_trans hlen (min_le_right _ _)⟩

theorem similarity_endpoints_result_cap_witness :
    ∃ msg, search_similar_events none (some ("evt-1")) 50
      = Except.error (500, msg) :=
  similarity_endpoints_result_cap.1 none (some ("evt-1")) 50 (Or.inr (by simp))

/-- C8 (code bug): a similarity request whose seed is a nonexistent event
id does reach the intended `HTTPException(404, "Event not found")` inside
the handler's `try` block, but the blanket `except Exception` catches that
very exception and replies with the generic HTTP 500 "Error finding
similar events" — the caller sees a generic server error, not a
NotFound-class one. -/
theorem similar_events_missing_event_returns_500 :
    get_similar_events_body [] "missing-id" 10 (0.7 : ℝ) false
      = Except.error (404, "Event not found")
    ∧ get_similar_events [] "missing-id" 10 (0.7 : ℝ) false
      = Except.error (500, "Error finding similar events") := ⟨rfl, rfl⟩

theorem generate_embedding_provider_error (dimension : ℕ) (text : String)
    (values_invalid : Bool) :
    generate_embedding dimension text (Except.error ()) values_invalid
      = List.replicate dimension (0.1 : ℝ) := by
  unfold generate_embedding
  split
  · rfl
  · rfl

/-- C7 counterexample: a failure inside the embedding provider does not
abort the similarity request with an error — `generate_embedding` catches
every provider exception and returns the sentinel vector `[0.1] *
dimension` (`embedding.py` lines 58-61), and the request proceeds to run
the vector search with that fabricated query vector, here producing a
non-empty result set (the stored event whose embedding happens to equal
the sentinel scores cosine similarity 1 against it). -/
theorem embedding_failure_not_aborted_cex :
    find_similar_events_by_text
        [⟨"e1", some (List.replicate 3 (0.1 : ℝ))⟩] 3 "concert"
        (Except.error ()) false 5 0 none false ≠ [] := by
  have hv : 0 < dotList (List.replicate 3 (0.1 : ℝ)) (List.replicate 3 (0.1 : ℝ)) :=
    dotList_self_pos _ ⟨0.1, by simp, by norm_num⟩
  have hnn : normList (List.replicate 3 (0.1 : ℝ)) * normList (List.replicate 3 (0.1 : ℝ))
      = dotList (List.replicate 3 (0.1 : ℝ)) (List.replicate 3 (0.1 : ℝ)) :=
    Real.mul_self_sqrt (dotList_self_nonneg _)
  have hsim : pg_cosine_similarity (List.replicate 3 (0.1 : ℝ))
      (List.replicate 3 (0.1 : ℝ)) = 1 := by
    unfold pg_cosine_similarity
    rw [hnn]
    exact div_self (ne_of_gt hv)
  have hrow : sql_row (List.replicate 3 (0.1 : ℝ)) 0 none
      ⟨"e1", some (List.replicate 3 (0.1 : ℝ))⟩
      = some (⟨"e1", some (List.replicate 3 (0.1 : ℝ))⟩,
          pg_cosine_similarity (List.replicate 3 (0.1 : ℝ))
            (List.replicate 3 (0.1 : ℝ))) := by
    unfold sql_row
    dsimp only
    rw [if_pos (show not_excluded none
        ⟨"e1", some (List.replicate 3 (0.1 : ℝ))⟩ = true from rfl),
      if_pos (by rw [hsim]; norm_num)]
  unfold find_similar_events_by_text
  rw [generate_embedding_provider_error]
  unfold _find_by_vector_similarity
  rw [if_neg Bool.false_ne_true]
  unfold _find_by_vector_similarity_sql
  rw [List.filterMap_cons, hrow]
  simp

/-- C7 (amended): a failure inside the embedding provider never aborts the
text similarity request — `generate_embedding` swallows the exception and
returns the sentinel vector `[0.1] * dimension`, and the request proceeds
to run the vector search with that sentinel as the query vector, returning
whatever that search yields (no retryable-error signal distinct from "no
results found" is surfaced). -/
theorem embedding_failure_sentinel_proceeds (db : List EEvent) (dimension : ℕ)
    (text : String) (values_invalid : Bool) (limit : ℕ) (min_similarity : ℝ)
    (exclude_event_id : Option String) (nativeFails : Bool) :
    generate_embedding dimension text (Except.error ()) values_invalid
      = List.replicate dimension (0.1 : ℝ)
    ∧ find_similar_events_by_text db dimension text (Except.error ())
        values_invalid limit min_similarity exclude_event_id nativeFails
      = _find_by_vector_similarity db (List.replicate dimension (0.1 : ℝ))
          limit min_similarity exclude_event_id nativeFails := by
  refine ⟨generate_embedding_provider_error dimension text values_invalid, ?_⟩
  unfold find_similar_events_by_text
  rw [generate_embedding_provider_error]

/-- An `events` row as used by the busiest-cities histogram: the grouping
`region` and the `start` timestamp in minutes. -/
structure RegionEvent where
  region : String
  start : ℤ
deriving DecidableEq, Repr

/-- One histogram bucket (`events_cache.py` lines 518-522 / 528-532):
interval bounds in minutes and the event count. -/
structure IntervalCount where
  interval_start : ℤ
  interval_end : ℤ
  event_count : ℕ
deriving DecidableEq, Repr

/-- The per-bucket SQL count (`events_cache.py` lines 506-517):
`COUNT(*) WHERE region = city AND interval_start <= start < interval_end`. -/
def count_events_in (db : List RegionEvent) (city : String) (s e : ℤ) : ℕ :=
  (db.filter (fun ev => ev.region = city ∧ s ≤ ev.start ∧ ev.start < e)).length

/-- Python `range(0, hours_window, interval_hours)` for a positive step. -/
def range_step (hours_window interval_hours : ℕ) : List ℕ :=
  List.range' 0 ((hours_window + interval_hours - 1) / interval_hours) interval_hours

/-- Sort key of the final `event_counts.sort(key=lambda x:
x['interval_start'])`: `interval_start` ascending (the ISO strings being
compared are equal-format, so their lexicographic order is the
chronological order modelled here on ℤ). -/
def interval_le (a b : IntervalCount) : Prop := a.interval_start ≤ b.interval_start

instance : DecidableRel interval_le := fun a b =>
  inferInstanceAs (Decidable (a.interval_start ≤ b.interval_start))

instance : IsTotal IntervalCount interval_le := ⟨fun _ _ => le_total _ _⟩

instance : IsTrans IntervalCount interval_le := ⟨fun _ _ _ => le_trans⟩

/-- One bucket of the loop body of `_get_event_counts_by_interval`
(`events_cache.py` lines 501-532): `now` is `end_time` truncated to the
hour; bucket `i` spans `[now - i*60 - interval_hours*60, now - i*60)`
minutes, and a failed per-bucket query contributes a zero count. -/
def interval_bucket (db : List RegionEvent) (city_name : String)
    (end_time : ℤ) (interval_hours : ℕ) (queryFails : ℕ → Bool)
    (i : ℕ) : IntervalCount :=
  { interval_start :=
      end_time - end_time % 60 - 60 * (i : ℤ) - 60 * (interval_hours : ℤ)
    interval_end := end_time - end_time % 60 - 60 * (i : ℤ)
    event_count :=
      if queryFails i then 0
      else count_events_in db city_name
        (end_time - end_time % 60 - 60 * (i : ℤ) - 60 * (interval_hours : ℤ))
        (end_time - end_time % 60 - 60 * (i : ℤ)) }

/-- `EventsCacheService._get_event_counts_by_interval`: walk backwards in
`interval_hours` steps over the `hours_window`, build each bucket, then
sort the buckets by `interval_start` ascending (oldest first). -/
def _get_event_counts_by_interval (db : List RegionEvent) (city_name : String)
    (end_time : ℤ) (hours_window interval_hours : ℕ)
    (queryFails : ℕ → Bool) : List IntervalCount :=
  List.insertionSort interval_le
    ((range_step hours_window interval_hours).map
      (interval_bucket db city_name end_time interval_hours queryFails))

theorem sum_map_add_split (idx : List ℕ) (f g : ℕ → ℕ) :
    (idx.map (fun i => f i + g i)).sum = (idx.map f).sum + (idx.map g).sum := by
  induction idx with
  | nil => simp
  | cons i idx ih => simp [ih]; omega

theorem sum_map_ite_eq_countP (idx : List ℕ) (q : ℕ → Prop) [DecidablePred q] :
    (idx.map (fun i => if q i then (1 : ℕ) else 0)).sum
      = idx.countP (fun i => q i) := by
  induction idx with
  | nil => simp
  | cons i idx ih =>
    by_cases h : q i <;> simp [List.countP_cons, h, ih, Nat.add_comm]

theorem countP_le_one_of_unique (q : ℕ → Prop) [DecidablePred q]
    (idx : List ℕ) (hnd : idx.Nodup)
    (huniq : ∀ i ∈ idx, ∀ j ∈ idx, q i → q j → i = j) :
    idx.countP (fun i => q i) ≤ 1 := by
  induction idx with
  | nil => simp
  | cons i idx ih =>
    rw [List.countP_cons]
    by_cases h : q i
    · have hz : idx.countP (fun j => q j) = 0 := by
        rw [List.countP_eq_zero]
        intro j hj
        simp only [decide_eq_true_eq]
        intro hqj
        have : i = j :=
          huniq i (List.mem_cons_self _ _) j (List.mem_cons_of_mem _ hj) h hqj
        exact (List.nodup_cons.mp hnd).1 (this ▸ hj)
      simp [hz, h]
    · have := ih (List.nodup_cons.mp hnd).2
        (fun a ha b hb hqa hqb =>
          huniq a (List.mem_cons_of_mem _ ha) b (List.mem_cons_of_mem _ hb) hqa hqb)
      simp [h]
      omega

theorem count_events_in_cons (a : RegionEvent) (l : List RegionEvent)
    (city : String) (s e : ℤ) :
    count_events_in (a :: l) city s e
      = count_events_in l city s e
        + (if a.region = city ∧ s ≤ a.start ∧ a.start < e then 1 else 0) := by
  by_cases h : a.region = city ∧ s ≤ a.start ∧ a.start < e <;>
    simp [count_events_in, List.filter_cons, h]

theorem count_events_in_sum_le (db : List RegionEvent) (city : String)
    (idx : List ℕ) (s e : ℕ → ℤ) (S E : ℤ) (hnd : idx.Nodup)
    (huniq : ∀ (t : ℤ), ∀ i ∈ idx, ∀ j ∈ idx,
        s i ≤ t → t < e i → s j ≤ t → t < e j → i = j)
    (himp : ∀ i ∈ idx, S ≤ s i ∧ e i ≤ E) :
    (idx.map (fun i => count_events_in db city (s i) (e i))).sum
      ≤ count_events_in db city S E := by
  induction db with
  | nil => simp [count_events_in]
  | cons a l ih =>
    have hmapeq : (idx.map (fun i => count_events_in (a :: l) city (s i) (e i)))
        = idx.map (fun i => count_events_in l city (s i) (e i)
            + (if a.region = city ∧ s i ≤ a.start ∧ a.start < e i then 1 else 0)) := by
      refine List.map_congr_left ?_
      intro i _
      exact count_events_in_cons a l city (s i) (e i)
    rw [hmapeq, count_events_in_cons, sum_map_add_split]
    have hind : (idx.map (fun i =>
        if a.region = city ∧ s i ≤ a.start ∧ a.start < e i then (1 : ℕ) else 0)).sum
        ≤ (if a.region = city ∧ S ≤ a.start ∧ a.start < E then 1 else 0) := by
      by_cases hP : a.region = city ∧ S ≤ a.start ∧ a.start < E
      · rw [if_pos hP, sum_map_ite_eq_countP]
        refine countP_le_one_of_unique _ idx hnd ?_
        intro i hi j hj hqi hqj
        exact huniq a.start i hi j hj hqi.2.1 hqi.2.2 hqj.2.1 hqj.2.2
      · rw [if_neg hP]
        have hall : ∀ i ∈ idx,
            ¬ (a.region = city ∧ s i ≤ a.start ∧ a.start < e i) := by
          intro i hi hc
          rcases himp i hi with ⟨hS, hE⟩
          exact hP ⟨hc.1, le_trans hS hc.2.1, lt_of_lt_of_le hc.2.2 hE⟩
        have : (idx.map (fun i =>
            if a.region = city ∧ s i ≤ a.start ∧ a.start < e i then (1 : ℕ) else 0))
            = idx.map (fun _ => 0) := by
          refine List.map_congr_left ?_
          intro i hi
          rw [if_neg (hall i hi)]
        rw [this]
        simp
    have hrec := ih
    omega

theorem range_step_24_3 : range_step 24 3 = [0, 3, 6, 9, 12, 15, 18, 21] := by
  decide

/-- C9: for the 24-hour window with 3-hour intervals used by
`get_busiest_cities`, the histogram has exactly 8 buckets, each spanning
exactly 3 hours (180 minutes), returned sorted oldest-to-newest by
interval start; each bucket count is either the true (non-negative) count
for its interval or 0 when that bucket's query failed — never an aborted
response; and the counts sum to at most the city's total event count over
the 24-hour window the buckets tile. -/
theorem event_counts_by_interval_buckets (db : List RegionEvent)
    (city_name : String) (end_time : ℤ) (queryFails : ℕ → Bool) :
    (_get_event_counts_by_interval db city_name end_time 24 3 queryFails).length = 8
    ∧ (∀ b ∈ _get_event_counts_by_interval db city_name end_time 24 3 queryFails,
        b.interval_end - b.interval_start = 180
        ∧ (b.event_count
              = count_events_in db city_name b.interval_start b.interval_end
            ∨ b.event_count = 0))
    ∧ List.Sorted interval_le
        (_get_event_counts_by_interval db city_name end_time 24 3 queryFails)
    ∧ ((_get_event_counts_by_interval db city_name end_time 24 3 queryFails).map
          IntervalCount.event_count).sum
        ≤ count_events_in db city_name
            (end_time - end_time % 60 - 1440) (end_time - end_time % 60) := by
  have hperm : List.Perm
      (_get_event_counts_by_interval db city_name end_time 24 3 queryFails)
      ((range_step 24 3).map
        (interval_bucket db city_name end_time 3 queryFails)) :=
    List.perm_insertionSort _ _
  have hfacts : ∀ k ∈ range_step 24 3, k % 3 = 0 ∧ k ≤ 21 := by
    rw [range_step_24_3]
    decide
  refine ⟨?_, ?_, List.sorted_insertionSort _ _, ?_⟩
  · rw [hperm.length_eq, List.length_map, range_step_24_3]
    rfl
  · intro b hb
    rcases List.mem_map.mp (hperm.subset hb) with ⟨i, hi, rfl⟩
    constructor
    · show (interval_bucket db city_name end_time 3 queryFails i).interval_end
          - (interval_bucket db city_name end_time 3 queryFails i).interval_start = 180
      unfold interval_bucket
      dsimp only
      push_cast
      ring
    · by_cases hf : queryFails i
      · right
        simp [interval_bucket, hf]
      · left
        simp [interval_bucket, hf]
  · have hsum : ((_get_event_counts_by_interval db city_name end_time 24 3
          queryFails).map IntervalCount.event_count).sum
        = (((range_step 24 3).map
            (interval_bucket db city_name end_time 3 queryFails)).map
              IntervalCount.event_count).sum :=
      (hperm.map IntervalCount.event_count).sum_eq
    rw [hsum, List.map_map]
    have key := count_events_in_sum_le db city_name (range_step 24 3)
      (fun i => end_time - end_time % 60 - 60 * (i : ℤ) - 60 * ((3 : ℕ) : ℤ))
      (fun i => end_time - end_time % 60 - 60 * (i : ℤ))
      (end_time - end_time % 60 - 1440) (end_time - end_time % 60)
      (by rw [range_step_24_3]; decide)
      (by
        intro t i hi j hj h1 h2 h3 h4
        rcases hfacts i hi with ⟨hmi, hli⟩
        rcases hfacts j hj with ⟨hmj, hlj⟩
        dsimp only at h1 h2 h3 h4
        omega)
      (by
        intro i hi
        rcases hfacts i hi with ⟨-, hli⟩
        constructor <;> (dsimp only; omega))
    refine le_trans (List.sum_le_sum ?_) key
    intro i hi
    dsimp only [Function.comp, interval_bucket]
    by_cases hf : queryFails i
    · rw [if_pos hf]
      exact Nat.zero_le _
    · rw [if_neg hf]

theorem event_counts_by_interval_buckets_witness :
    (_get_event_counts_by_interval [⟨"Seattle", 100⟩] "Seattle" 1500 24 3
        (fun _ => false)).length = 8
    ∧ ((⟨60, 240, 1⟩ : IntervalCount).interval_end
          - (⟨60, 240, 1⟩ : IntervalCount).interval_start = 180
        ∧ ((⟨60, 240, 1⟩ : IntervalCount).event_count
              = count_events_in [⟨"Seattle", 100⟩] "Seattle"
                  (⟨60, 240, 1⟩ : IntervalCount).interval_start
                  (⟨60, 240, 1⟩ : IntervalCount).interval_end
            ∨ (⟨60, 240, 1⟩ : IntervalCount).event_count = 0)) := by
  have h := event_counts_by_interval_buckets [⟨"Seattle", 100⟩] "Seattle" 1500
    (fun _ => false)
  exact ⟨h.1, h.2.1 ⟨60, 240, 1⟩ (by decide)⟩
